import Mathlib

/-!
Verification development for the post-quantum trust core of the axiomverse
platform: the vector-knowledge proof engines (`QuantumZKP` in its three
variants) and the threshold verifiable-secret-sharing engine (`VSS`).

Python sources are embedded shallowly:

* machine floats of the source become exact rationals; values of the form
  `q / sqrt(n)` produced by L2 normalization are represented symbolically by
  the pair `(q, n)` so that every quantity the programs compare (squared
  magnitudes, probability sums) stays inside `ℚ`;
* byte strings (keys, digests, ciphertexts, signatures) are lists of byte
  values;
* cryptographic primitives (SHA3-256, Falcon, Kyber) are abstract: digests
  are modelled as injective packagings of their pre-image, and signing /
  key encapsulation are unconstrained function parameters of each theorem;
* randomness (`np.random`, `secrets.randbelow`) is an explicit stream
  parameter, indexed by the position of the draw in the program run;
* fallible code runs in `Except`, and a Python `try/except` is the
  corresponding handler on the `Except` value;
* mutation of Python objects (the verification-result cache, the proof
  dictionary mutated by `quantum_zkp._prepare_message_for_signing`, the
  Kyber object's secret key replaced by `generate_keypair`) is explicit
  state passing.
-/

set_option maxRecDepth 40000

/-- Byte strings (keys, digests, ciphertexts, signatures) as lists of byte
values. -/
abbrev Bytes := List ℕ

instance instDecEqExcept {ε α : Type} [DecidableEq ε] [DecidableEq α] :
    DecidableEq (Except ε α) := fun x y =>
  match x, y with
  | .error e, .error f =>
    if h : e = f then isTrue (by rw [h]) else isFalse (fun heq => h (by injection heq))
  | .error _, .ok _ => isFalse (fun heq => by injection heq)
  | .ok _, .error _ => isFalse (fun heq => by injection heq)
  | .ok a, .ok b =>
    if h : a = b then isTrue (by rw [h]) else isFalse (fun heq => h (by injection heq))

/-- Absolute value on `ℚ`, written out so that it evaluates by unfolding. -/
def qabs (q : ℚ) : ℚ := if q < 0 then -q else q

/-- Fuel-driven extended Euclid: `xgcdFuel f x y = (g, a, b)` with
`a * x + b * y = g = gcd x y` whenever `f` dominates the recursion depth
(always true below for 128-bit inputs and fuel 1000). Backs `modInv`. -/
def xgcdFuel : ℕ → ℤ → ℤ → ℤ × ℤ × ℤ
  | 0, x, _ => (x, 1, 0)
  | fuel + 1, x, y =>
    if y = 0 then (x, 1, 0)
    else
      let q := x / y
      let r := x % y
      let t := xgcdFuel fuel y r
      (t.1, t.2.2, t.2.1 - q * t.2.2)

/-- Python `pow(d, -1, p)`: the inverse of `d` modulo `p`, as the canonical
residue in `[0, p)`.  Agrees with the source on every argument the source
reaches (there `p` is prime and `d` a nonzero residue, so the inverse
exists). -/
def modInv (d : ℤ) (p : ℕ) : ℤ := (xgcdFuel 1000 d (p : ℤ)).2.1 % (p : ℤ)

/-- Python `int(...)` on an exact rational: truncation toward zero. -/
def pyTrunc (q : ℚ) : ℤ := q.num.tdiv (q.den : ℤ)

/-- Python `round(..)` : round half to even (banker's rounding). -/
def pyRound (q : ℚ) : ℤ :=
  let f := Rat.floor q
  let r := q - (f : ℚ)
  if r < 1 / 2 then f
  else if 1 / 2 < r then f + 1
  else if f % 2 = 0 then f else f + 1

/-- Python `round(q, 4)`. -/
def round4 (q : ℚ) : ℚ := (pyRound (q * 10000) : ℚ) / 10000

/-- Python `int.from_bytes(bs, byteorder='big')`. -/
def intFromBytesBE (bs : Bytes) : ℕ := bs.foldl (fun acc b => acc * 256 + b) 0

namespace VSS

/-! Embedding of `src/src/modules/vector_module/vss_utils.py` (class `VSS`). -/

/-- `VSS.PRIME_MODULUS = 2 ** 127 - 1` (the literal value, so that proofs
evaluate without unfolding a power). -/
def PRIME_MODULUS : ℕ := 170141183460469231731687303715884105727

theorem PRIME_MODULUS_eq : PRIME_MODULUS = 2 ^ 127 - 1 := by norm_num [PRIME_MODULUS]

/-- `VSS.SCALE_FACTOR = 10 ** 8`. -/
def SCALE_FACTOR : ℕ := 100000000

theorem SCALE_FACTOR_eq : SCALE_FACTOR = 10 ^ 8 := by norm_num [SCALE_FACTOR]

/-- One `(index, ciphertext, shared_secret, signature)` tuple appended by
`VSS.split_secret`: `ciphertext` and `shared_secret` are the two outputs of
`kyber.encap_secret`, and `signature` is `falcon.sign(ciphertext)`. -/
structure Share where
  index : ℕ
  ciphertext : Bytes
  sharedSecret : Bytes
  signature : Bytes
deriving DecidableEq

/-- Abstract model of the cryptographic state of a `VSS` instance.
`keygen ci i` is the `(public key, secret key)` pair produced by the fresh
randomness of the `generate_keypair` call for share `i` of coordinate `ci`;
`encap pk ci i` the `(ciphertext, shared_secret)` pair of the matching
`encap_secret` call; `decap sk ct` Kyber decapsulation of `ct` under the
object's current secret key `sk`.  `sign` is Falcon signing under the
instance key and `verifySig msg sig pk` Falcon verification against a caller
supplied public key.  `coefRand ci j` is the `secrets.randbelow(PRIME_MODULUS)`
draw for random coefficient `j` of coordinate `ci` (reduced mod the prime to
model `randbelow`'s range).  `sk0` is the Kyber secret key held before
`split_secret` runs and `threshold` the value set by `__init__`
(`self.threshold = 3`). -/
structure Ctx where
  keygen : ℕ → ℕ → Bytes × Bytes
  encap : Bytes → ℕ → ℕ → Bytes × Bytes
  decap : Bytes → Bytes → Bytes
  sign : Bytes → Bytes
  verifySig : Bytes → Bytes → Bytes → Bool
  coefRand : ℕ → ℕ → ℕ
  sk0 : Bytes
  threshold : ℕ

/-- `Poly.from_list(coefficients, x, domain=GF(p)).eval(i) % p`.  sympy's
`from_list` reads coefficients in descending-degree order, so the first list
element (the scaled secret) is the leading coefficient; evaluation is
Horner's rule, and the trailing `% p` leaves the canonical residue. -/
def polyEvalMod (coeffs : List ℤ) (x : ℤ) (p : ℕ) : ℤ :=
  (coeffs.foldl (fun acc c => acc * x + c) 0) % (p : ℤ)

/-- Loop body of `VSS.split_secret` for one coordinate: builds the scaled
integer and the coefficient list, then for `i = 1 .. num_shares` evaluates the
polynomial (binding `share_value`, which the source never stores), generates a
fresh Kyber keypair, encapsulates, signs the ciphertext and appends
`(i, ciphertext, shared_secret, signature)`.  Returns the share list together
with the Kyber object's secret key after the loop (each `generate_keypair`
call replaces it). -/
def splitCoord (V : Ctx) (sk : Bytes) (ci : ℕ) (coord : ℚ)
    (threshold numShares : ℕ) : List Share × Bytes :=
  let coordInt : ℤ := pyTrunc (coord * (SCALE_FACTOR : ℚ))
  let coefficients : List ℤ :=
    coordInt :: (List.range (threshold - 1)).map
      (fun j => ((V.coefRand ci j : ℤ) % (PRIME_MODULUS : ℤ)))
  (List.range numShares).foldl
    (fun (acc : List Share × Bytes) k =>
      let i : ℕ := k + 1
      let share_value := polyEvalMod coefficients (i : ℤ) PRIME_MODULUS
      let pkSk := V.keygen ci i
      let ctSs := V.encap pkSk.1 ci i
      let signature := V.sign ctSs.1
      (acc.1 ++ [⟨i, ctSs.1, ctSs.2, signature⟩], pkSk.2))
    ([], sk)

/-- The coordinate loop of `VSS.split_secret`, threading the Kyber secret key
through the per-coordinate loops; `ci` counts the coordinates already
processed (it indexes the randomness streams). -/
def splitSecretGo (V : Ctx) (threshold numShares : ℕ) :
    ℕ → Bytes → List ℚ → List (List Share) × Bytes
  | _, sk, [] => ([], sk)
  | ci, sk, c :: rest =>
    let r := splitCoord V sk ci c threshold numShares
    let tail := splitSecretGo V threshold numShares (ci + 1) r.2 rest
    (r.1 :: tail.1, tail.2)

/-- `VSS.split_secret(coordinates, threshold, num_shares)`: the returned
share groups (outer list indexed by coordinate) together with the Kyber
object's secret key when the call returns. -/
def split_secret (V : Ctx) (coordinates : List ℚ) (threshold numShares : ℕ) :
    List (List Share) × Bytes :=
  splitSecretGo V threshold numShares 0 V.sk0 coordinates

/-- The `ValueError`s reachable from `VSS.reconstruct_secret`. -/
inductive VssError
  | notEnoughShares
  | badShareSignature
  | nonInvertibleBase
deriving DecidableEq

/-- The nested `lagrange_interpolate(x, x_s, y_s, p)` of
`VSS._reconstruct_from_shares`: Lagrange interpolation at `x` over the prime
field, raising on a zero denominator. -/
def lagrangeInterpolate (x : ℤ) (xs ys : List ℤ) (p : ℕ) :
    Except VssError ℤ := do
  let k := xs.length
  let mut result : ℤ := 0
  for j in List.range k do
    let mut term : ℤ := ys.getD j 0
    for m in List.range k do
      if m ≠ j then
        let denom := (xs.getD j 0 - xs.getD m 0) % (p : ℤ)
        if denom = 0 then throw .nonInvertibleBase
        term := (term * (x - xs.getD m 0) * modInv denom p) % (p : ℤ)
    result := (result + term) % (p : ℤ)
  return result

/-- `VSS._reconstruct_from_shares(shares)`: interpolation at `x = 0` with the
class prime modulus. -/
def reconstructFromShares (shares : List (ℕ × ℤ)) : Except VssError ℤ :=
  lagrangeInterpolate 0 (shares.map (fun s => (s.1 : ℤ))) (shares.map Prod.snd)
    PRIME_MODULUS

/-- `VSS.reconstruct_secret(all_encrypted_shares, public_key)` under the
Kyber secret key `sk` currently held by the instance.  Faithfully to the
source, the only share-count check compares the number of coordinate GROUPS
(`len(all_encrypted_shares)`) with the instance field `self.threshold`;
within a group every share is signature-checked, decapsulated, read as a
big-endian integer, interpolated at zero, rescaled and rounded to 4
decimals. -/
def reconstruct_secret (V : Ctx) (sk : Bytes)
    (allEncryptedShares : List (List Share)) (publicKey : Bytes) :
    Except VssError (List ℚ) := do
  if allEncryptedShares.length < V.threshold then throw .notEnoughShares
  let mut reconstructedCoords : List ℚ := []
  for coordShares in allEncryptedShares do
    let mut sharesForReconstruction : List (ℕ × ℤ) := []
    for s in coordShares do
      if ¬ (V.verifySig s.ciphertext s.signature publicKey) then
        throw .badShareSignature
      let sharedSecret := V.decap sk s.ciphertext
      sharesForReconstruction :=
        sharesForReconstruction ++ [(s.index, (intFromBytesBE sharedSecret : ℤ))]
    let coordInt ← reconstructFromShares sharesForReconstruction
    reconstructedCoords :=
      reconstructedCoords ++ [round4 ((coordInt : ℚ) / (SCALE_FACTOR : ℚ))]
  return reconstructedCoords

/-- Splitting followed by reconstruction of the same shares on the same
instance: the secret key passed to decapsulation is the one the Kyber object
holds after `split_secret` returns. -/
def splitThenReconstruct (V : Ctx) (secret : List ℚ)
    (threshold numShares : ℕ) (publicKey : Bytes) : Except VssError (List ℚ) :=
  let r := split_secret V secret threshold numShares
  reconstruct_secret V r.2 r.1 publicKey

/-- A concrete instantiation of the abstract cryptography, used to evaluate
the pipeline on explicit inputs. -/
def ctx0 : Ctx where
  keygen := fun _ _ => ([1], [2])
  encap := fun _ _ _ => ([3], [4])
  decap := fun _ _ => [0]
  sign := fun _ => [7]
  verifySig := fun _ sig _ => sig == ([7] : Bytes)
  coefRand := fun _ _ => 0
  sk0 := [9]
  threshold := 3

end VSS

/-- The per-coordinate loop of `split_secret` produces share tuples that do
not depend on the coordinate being split: the polynomial evaluation bound to
`share_value` in the source is never stored, and the stored payload
(`ciphertext`, `shared_secret`, `signature`) derives only from the KEM and
signing calls. -/
theorem VSS.splitCoord_secret_irrelevant (V : VSS.Ctx) (sk : Bytes) (ci : ℕ)
    (c₁ c₂ : ℚ) (T N : ℕ) :
    VSS.splitCoord V sk ci c₁ T N = VSS.splitCoord V sk ci c₂ T N := rfl

/-- Lifting of `VSS.splitCoord_secret_irrelevant` to the coordinate loop. -/
theorem VSS.splitSecretGo_secret_irrelevant (V : VSS.Ctx) (T N : ℕ) :
    ∀ (s₁ s₂ : List ℚ) (ci : ℕ) (sk : Bytes), s₁.length = s₂.length →
      VSS.splitSecretGo V T N ci sk s₁ = VSS.splitSecretGo V T N ci sk s₂
  | [], [], _, _, _ => rfl
  | [], _ :: _, _, _, h => by simp at h
  | _ :: _, [], _, _, h => by simp at h
  | a :: t₁, b :: t₂, ci, sk, h => by
    simp only [VSS.splitSecretGo]
    rw [VSS.splitCoord_secret_irrelevant V sk ci a b T N,
      VSS.splitSecretGo_secret_irrelevant V T N t₁ t₂ (ci + 1)
        (VSS.splitCoord V sk ci b T N).2 (by simpa using h)]

/-- C1: the claim fails on the code, which contradicts its own docstrings
(`_reconstruct_from_shares` promises to "reconstruct the secret integer from
shares").  `split_secret` evaluates the Shamir polynomial into the local
`share_value` and then never stores it: the tuple it distributes carries the
Kyber `shared_secret` produced by `encap_secret`, and `reconstruct_secret`
interpolates decapsulated KEM secrets.  Consequently the reconstruction
output is a function of the KEM material and randomness alone: any two
secrets of equal dimension yield byte-identical shares and the identical
"reconstruction", so reconstruction cannot return the split secret (to any
tolerance) for more than one secret vector. -/
theorem C1_reconstruction_independent_of_secret (V : VSS.Ctx)
    (s₁ s₂ : List ℚ) (T N : ℕ) (pk : Bytes) (h : s₁.length = s₂.length) :
    VSS.splitThenReconstruct V s₁ T N pk =
      VSS.splitThenReconstruct V s₂ T N pk := by
  unfold VSS.splitThenReconstruct VSS.split_secret
  rw [VSS.splitSecretGo_secret_irrelevant V T N s₁ s₂ 0 V.sk0 h]

/-- Witness for C1 at Scenario B's shape padded to three coordinates (two
coordinates would already die on the miscounted share-count check, see C8):
splitting `[1.2345, -3.21, 7]` with T = 3, N = 5 and reconstructing from all
of its shares returns exactly what the same run returns for the secret
`[0, 0, 0]`, namely `[0, 0, 0]` — not within 0.0001 of the secret. -/
theorem C1_reconstruction_independent_of_secret_witness :
    ([1.2345, -3.21, 7] : List ℚ).length = ([0, 0, 0] : List ℚ).length ∧
    VSS.splitThenReconstruct VSS.ctx0 [1.2345, -3.21, 7] 3 5 [] =
      VSS.splitThenReconstruct VSS.ctx0 [0, 0, 0] 3 5 [] ∧
    VSS.splitThenReconstruct VSS.ctx0 [1.2345, -3.21, 7] 3 5 [] =
      .ok [0, 0, 0] :=
  ⟨rfl,
    C1_reconstruction_independent_of_secret VSS.ctx0 [1.2345, -3.21, 7]
      [0, 0, 0] 3 5 [] rfl,
    by with_unfolding_all rfl⟩

/-- C8: the claim fails on the code, whose guard contradicts its own error
message ("Not enough shares provided for reconstruction"): the only check in
`reconstruct_secret` is `len(all_encrypted_shares) < self.threshold`, which
counts coordinate GROUPS against the fixed instance threshold 3 and ignores
both the per-coordinate share count and the threshold used at split time.
First conjunct: a 2-coordinate secret split with T = 3, N = 5 supplies five
(≥ T) shares per coordinate, yet reconstruction raises the error because
there are only 2 groups.  Second conjunct: a 3-coordinate secret split with
N = 1 supplies a single share per coordinate (fewer than T = 3), yet
reconstruction raises nothing and returns a vector. -/
theorem C8_share_count_check_counts_groups_not_shares :
    VSS.splitThenReconstruct VSS.ctx0 [1.2345, -3.21] 3 5 [] =
      .error .notEnoughShares ∧
    VSS.splitThenReconstruct VSS.ctx0 [1, 2, 3] 3 1 [] = .ok [0, 0, 0] :=
  ⟨by with_unfolding_all rfl, by with_unfolding_all rfl⟩

/-! Shared data model of the `QuantumZKP` variants.  Proof dictionaries are
records whose members are `Option`s (a `none` member models an absent
dictionary key); scalar values of the form `q / sqrt n` produced by L2
normalization are represented by the constructor `CVal.normalized q n`. -/

/-- A complex scalar as the proof pipelines produce and consume it:
`pair re im` is an ordinary complex with rational parts, `normalized q n`
the real value `q / sqrt n` produced by dividing a vector entry `q` by the
vector's L2 norm `sqrt n`.  Only its squared magnitude `absSq` is ever
compared numerically. -/
inductive CVal where
  | pair (re im : ℚ)
  | normalized (num : ℚ) (nsq : ℚ)
deriving DecidableEq

/-- `abs(c) ** 2` of a represented complex scalar. -/
def CVal.absSq : CVal → ℚ
  | .pair re im => re * re + im * im
  | .normalized n d => n * n / d

/-- `np.angle` of a real amplitude: `0` for a nonnegative value, `π` for a
negative one, kept symbolic (π is irrational; no claim compares a phase
numerically). -/
inductive Phase where
  | zero
  | pi
deriving DecidableEq

/-- One `{'basis_index': i, 'probability': p, 'phase': ph}` sample. -/
structure Measurement where
  basis_index : ℕ
  probability : ℚ
  phase : Phase
deriving DecidableEq

/-- A `basis_coefficients` entry as a verifier receives it: a JSON number, a
JSON object carrying `real`/`imag` members, a JSON object lacking one of
them (subscripting raises `KeyError`), or a live Python `complex`
(subscripting raises `TypeError` in the nested-variant parser). -/
inductive CoeffEntry where
  | num (q : ℚ)
  | obj (re im : ℚ)
  | objMissing
  | pyComplex (c : CVal)
deriving DecidableEq

/-- The `signature` member of a proof dictionary: `hexOf b` is the hex
string of the byte string `b`; `notHex` a string `bytes.fromhex` rejects
(`ValueError`); `nullSig` the `None` that
`quantum_zkp._prepare_message_for_signing` writes into the field
(`bytes.fromhex(None)` raises `TypeError`). -/
inductive SigField where
  | hexOf (b : Bytes)
  | notHex
  | nullSig
deriving DecidableEq

/-- The mean coherence `np.mean(np.abs(coordinates))` of a normalized state:
the real value `(sumAbs / sqrt nsq) / len`, kept symbolic by its rational
constituents. -/
structure CoherenceVal where
  sumAbs : ℚ
  len : ℕ
  nsq : ℚ
deriving DecidableEq

/-- The entanglement-entropy float, represented by the probability vector it
is computed from (`-Σ p·log2(p + 1e-10)` is irrational; no verification path
in any variant compares it numerically). -/
structure EntropyVal where
  probs : List ℚ
deriving DecidableEq

/-- The `state_metadata` member: the three-field record written by the
optimized prover, the two-field record written by the classic prover, or an
arbitrary JSON object supplied by an adversarial caller. -/
inductive MetaVal where
  | optMeta (coherence : CoherenceVal) (entanglement : EntropyVal) (correlation : EntropyVal)
  | classicMeta (coherence : ℚ) (entanglement : EntropyVal)
  | kvs (pairs : List (String × ℚ))
deriving DecidableEq

/-- A proof dictionary; a `none` member models an absent key. -/
structure Proof where
  quantum_dimensions : Option ℤ
  basis_coefficients : Option (List CoeffEntry)
  measurements : Option (List Measurement)
  state_metadata : Option MetaVal
  identifier : Option String
  signature : Option SigField
deriving DecidableEq

/-- `all(field in proof for field in required_fields)` for the six required
members shared by every variant's structural check. -/
def Proof.hasRequiredFields (p : Proof) : Bool :=
  p.quantum_dimensions.isSome && p.basis_coefficients.isSome &&
    p.measurements.isSome && p.state_metadata.isSome &&
    p.identifier.isSome && p.signature.isSome

/-- `{k: v for k, v in proof.items() if k != "signature"}`. -/
def Proof.stripSignature (p : Proof) : Proof := { p with signature := none }

/-- The Python exceptions distinguished by the embeddings. -/
inductive PyErr where
  | keyError
  | typeError
  | valueError
  | nameError
deriving DecidableEq

/-- A vector after `vector / np.linalg.norm(vector)`: the array whose `i`-th
entry denotes `raw[i] / sqrt nsq` (with `nsq` the squared norm of the
original input). -/
structure NormVec where
  raw : List ℚ
  nsq : ℚ
deriving DecidableEq

/-- `Σ v_i²`, the squared L2 norm. -/
def normSq (v : List ℚ) : ℚ := (v.map (fun x => x * x)).sum

namespace QZKPClassic

/-! Embedding of `src/modules/zkp/quantum_zkp.py` (`QuantumZKP` with the
Dilithium-style signer).  Note two peculiarities of that file, both embedded
faithfully: the module never imports or defines the name `dil`, so every
signing or verifying call raises `NameError`; and
`_prepare_message_for_signing` assigns `proof["signature"] = None` on the
caller's dictionary instead of working on a copy. -/

/-- `QuantumStateVector` of the classic variant: `coordinates` is the state
vector handed to `__init__` (the prover passes the normalized input),
`phase` the fresh `np.random.uniform(0, 2π, len)` draw.  The `timestamp`
field is omitted: nothing hashed, serialized or returned by the claims'
entry points reads it. -/
structure State where
  coordinates : NormVec
  phase : List ℚ
  entanglement : ℚ
  coherence : ℚ
  state_type : String
deriving DecidableEq

/-- `QuantumStateVector.__init__(state_vector)`: raises `ValueError` on an
empty vector, else stores the vector, draws one uniform phase per component
from the stream `phaseRand`, and sets `entanglement = 0.0`,
`coherence = 1.0`, `state_type = "SUPERPOSITION"`. -/
def stateInit (stateVector : NormVec) (phaseRand : ℕ → ℚ) :
    Except PyErr State :=
  if stateVector.raw.length = 0 then .error .valueError
  else .ok
    { coordinates := stateVector
      phase := (List.range stateVector.raw.length).map phaseRand
      entanglement := 0
      coherence := 1
      state_type := "SUPERPOSITION" }

/-- Pre-image of the classic commitment digest:
`h.update(coordinates.tobytes()); h.update(phase.tobytes());
h.update(str(coherence)); h.update(identifier)`. -/
structure CommitInput where
  coords : NormVec
  phase : List ℚ
  coherence : ℚ
  identifier : String
deriving DecidableEq

/-- A classic commitment: the SHA3-256 digest of its input, modelled as an
injective packaging of the pre-image (collision resistance of the hash). -/
structure Commitment where
  digest : CommitInput
deriving DecidableEq

/-- `QuantumZKP._generate_commitment(state, identifier)`. -/
def generate_commitment (state : State) (identifier : String) : Commitment :=
  ⟨⟨state.coordinates, state.phase, state.coherence, identifier⟩⟩

/-- The prefix of `QuantumZKP.prove_vector_knowledge(vector, identifier)` up
to and including `commitment = self._generate_commitment(state, identifier)`:
normalize the input (the `NormVec` pairing of the raw vector with its squared
norm), build the quantum state — drawing fresh random phases — and hash it
with the identifier. -/
def prove_commitment (v : List ℚ) (identifier : String) (phaseRand : ℕ → ℚ) :
    Except PyErr Commitment := do
  let normalized : NormVec := ⟨v, normSq v⟩
  let state ← stateInit normalized phaseRand
  return generate_commitment state identifier

/-- The engine fields `verify_proof` consults (`dimensions`; the
`security_level` drives `_verify_measurements`, which the `NameError` raised
by the absent `dil` makes unreachable). -/
structure Engine where
  dimensions : ℤ
  security_level : ℕ
deriving DecidableEq

/-- `QuantumZKP.verify_proof` body (the inside of its `try`).  Faults carry
the proof dictionary as it stands when they are raised, because the
`proof["signature"] = None` assignment inside
`_prepare_message_for_signing` survives the exception.  After that mutation
the `dil.verify(...)` lookup raises `NameError` (`dil` is bound nowhere in
the module), so no later check is reachable. -/
def verify_proof_raw (e : Engine) (commitment : Commitment) (proof : Proof)
    (identifier : String) : Except (PyErr × Proof) (Bool × Proof) :=
  if ¬ proof.hasRequiredFields then .ok (false, proof)
  else if proof.quantum_dimensions ≠ some e.dimensions then .ok (false, proof)
  else if proof.identifier ≠ some identifier then .ok (false, proof)
  else
    match proof.signature with
    | none => .error (.keyError, proof)
    | some .notHex => .error (.valueError, proof)
    | some .nullSig => .error (.typeError, proof)
    | some (.hexOf _) =>
      let proofMut := { proof with signature := some .nullSig }
      .error (.nameError, proofMut)

/-- `QuantumZKP.verify_proof(commitment, proof, identifier)`: the `try`
handler turns any internal exception into the return value `False`; the
second component is the caller's proof dictionary after the call. -/
def verify_proof (e : Engine) (commitment : Commitment) (proof : Proof)
    (identifier : String) : Bool × Proof :=
  match verify_proof_raw e commitment proof identifier with
  | .ok r => r
  | .error (_, p) => (false, p)

end QZKPClassic

/-- C3: the claim fails on the code, and the spec itself marks the cause as
a defect (design note: randomized phase "breaks the commitment-determinism
contract").  `QuantumStateVector.__init__` draws `phase` afresh from
`np.random.uniform(0, 2π, len)` on every call and `_generate_commitment`
hashes `state.phase.tobytes()`, so two `prove_vector_knowledge(v, id)` calls
whose phase draws differ anywhere produce different commitments.  Evaluated
here at `v = [1, 0]`, `id = "test-1"`, with one run drawing all-zero phases
and the other drawing phase 1 first. -/
theorem C3_commitment_depends_on_random_phase :
    QZKPClassic.prove_commitment [1, 0] "test-1" (fun _ => 0) ≠
      QZKPClassic.prove_commitment [1, 0] "test-1" (fun _ => 1) :=
  of_decide_eq_true (by with_unfolding_all rfl)

/-- A structurally complete classic proof whose fields match engine
dimensions 8 and identifier "test-1", with a well-formed hex signature. -/
def QZKPClassic.sampleProof : Proof where
  quantum_dimensions := some 8
  basis_coefficients := some [.obj 1 0]
  measurements := some []
  state_metadata := some (.classicMeta 1 ⟨[1]⟩)
  identifier := some "test-1"
  signature := some (.hexOf [1, 2])

/-- A concrete classic commitment value for evaluating `verify_proof`. -/
def QZKPClassic.sampleCommitment : QZKPClassic.Commitment :=
  ⟨⟨⟨[1, 0], 1⟩, [0, 0], 1, "test-1"⟩⟩

/-- C9: the claim fails on the code, whose other two variants copy the
dictionary before serializing while this one (the claim's cited source)
mutates it: `verify_proof` reaches `_prepare_message_for_signing`, which
executes `proof["signature"] = None` on the caller's proof.  After the call
the signature member holds `None` instead of the hex string it held before
— the call is not side-effect-free on its inputs, and the same proof object
can never verify twice (the second attempt dies on
`bytes.fromhex(None)`). -/
theorem C9_verify_overwrites_signature_field :
    (QZKPClassic.verify_proof ⟨8, 128⟩ QZKPClassic.sampleCommitment
        QZKPClassic.sampleProof "test-1").2.signature = some .nullSig ∧
    QZKPClassic.sampleProof.signature = some (.hexOf [1, 2]) ∧
    some SigField.nullSig ≠ some (SigField.hexOf [1, 2]) :=
  of_decide_eq_true (by with_unfolding_all rfl)

namespace QZKPNested

/-! Embedding of `src/src/modules/zkp/qzkp_optimized.py` (`QuantumZKP` with
the `ResultCache`). -/

/-- `f"{commitment.hex()}-{identifier}"`: since a hex digit is never `-`,
the formatted string determines the pair, so the key is modelled as the
pair itself. -/
structure CacheKey where
  commitmentHex : Bytes
  identifier : String
deriving DecidableEq

/-- First-match association-list lookup (`key in dict` / `dict[key]`;
`updateAssoc` keeps keys unique, as a Python dict does). -/
def lookupAssoc : List (CacheKey × Bool) → CacheKey → Option Bool
  | [], _ => none
  | (k, v) :: rest, key => if k = key then some v else lookupAssoc rest key

/-- `dict[key] = value`: overwrite in place, else append. -/
def updateAssoc : List (CacheKey × Bool) → CacheKey → Bool → List (CacheKey × Bool)
  | [], key, v => [(key, v)]
  | (k, w) :: rest, key, v =>
    if k = key then (key, v) :: rest else (k, w) :: updateAssoc rest key v

/-- `del dict[key]`. -/
def removeAssoc : List (CacheKey × Bool) → CacheKey → List (CacheKey × Bool)
  | [], _ => []
  | (k, w) :: rest, key =>
    if k = key then rest else (k, w) :: removeAssoc rest key

/-- `ResultCache`: the mapping, the access deque and the capacity bound.
The `access_times` dictionary is omitted: no decision in the source reads
it (eviction order comes from `access_queue`).  The lock serializes the
mutating accesses; the embedding makes each critical section one atomic
state transition. -/
structure ResultCache where
  cache : List (CacheKey × Bool)
  accessQueue : List CacheKey
  maxsize : ℕ
deriving DecidableEq

/-- `ResultCache.get(key)`: on a hit, record the access and return the
cached value with the updated cache object; a miss changes nothing. -/
def ResultCache.get (st : ResultCache) (key : CacheKey) :
    Option Bool × ResultCache :=
  match lookupAssoc st.cache key with
  | some v => (some v, { st with accessQueue := st.accessQueue ++ [key] })
  | none => (none, st)

/-- The `while` loop of `ResultCache._evict_oldest`: pop the queue from the
left, deleting popped keys still present, until the queue is empty or the
mapping is below capacity. -/
def evictOldestGo (maxsize : ℕ) :
    List CacheKey → List (CacheKey × Bool) → List CacheKey × List (CacheKey × Bool)
  | [], cache => ([], cache)
  | k :: queue, cache =>
    if maxsize ≤ cache.length then
      let cache' := if (lookupAssoc cache k).isSome then removeAssoc cache k else cache
      evictOldestGo maxsize queue cache'
    else (k :: queue, cache)

/-- `ResultCache._evict_oldest()`. -/
def ResultCache.evictOldest (st : ResultCache) : ResultCache :=
  let r := evictOldestGo st.maxsize st.accessQueue st.cache
  { st with accessQueue := r.1, cache := r.2 }

/-- `ResultCache.put(key, value)`: evict when at capacity, then store and
record the access. -/
def ResultCache.put (st : ResultCache) (key : CacheKey) (v : Bool) :
    ResultCache :=
  let st1 := if st.maxsize ≤ st.cache.length then st.evictOldest else st
  { st1 with
    cache := updateAssoc st1.cache key v
    accessQueue := st1.accessQueue ++ [key] }

/-- The engine state `verify_proof` consults: its configuration and its
Falcon keypair, the latter modelled by the deterministic signing function
`sign` over the canonicalized proof body with the commitment bytes appended
(`_prepare_message_for_signing`); `_falcon.verify(m, s, pk)` holds exactly
when `s = sign m`. -/
structure Engine where
  dimensions : ℤ
  security_level : ℕ
  sign : Proof × Bytes → Bytes

/-- The nested coefficient parser
`complex(c) if isinstance(c, (int, float)) else complex(c['real'], c['imag'])`:
a live Python `complex` is not an `int`/`float`, so it is subscripted and
raises `TypeError`; an object lacking a member raises `KeyError`. -/
def parseCoeff : CoeffEntry → Except PyErr CVal
  | .num q => .ok (.pair q 0)
  | .obj re im => .ok (.pair re im)
  | .objMissing => .error .keyError
  | .pyComplex _ => .error .typeError

/-- Elementwise parse of the coefficient array (the list comprehension
inside `np.array([...])`). -/
def parseCoeffs : List CoeffEntry → Except PyErr (List CVal)
  | [] => .ok []
  | c :: rest =>
    match parseCoeff c, parseCoeffs rest with
    | .ok v, .ok vs => .ok (v :: vs)
    | .error er, _ => .error er
    | .ok _, .error er => .error er

/-- `PROBABILITY_TOLERANCE = 1e-5`. -/
def PROBABILITY_TOLERANCE : ℚ := 1 / 100000

/-- `_verify_basis_coefficients`: `abs(Σ|c_i|² - 1.0) < PROBABILITY_TOLERANCE`. -/
def verify_basis_coefficients (cs : List CVal) : Bool :=
  decide (qabs ((cs.map CVal.absSq).sum - 1) < PROBABILITY_TOLERANCE)

/-- The body of nested `verify_proof` (the inside of its `try`): structural
check, cache lookup on `f"{commitment.hex()}-{identifier}"`, hex-decode of
the signature, Falcon verification of the canonicalized body ‖ commitment,
coefficient parse and normalization check; a passing proof is cached as
`True`.  (This variant never compares `quantum_dimensions` or `identifier`
against the engine and caller — only the structural presence check and the
cache key involve them.) -/
def verify_proof_raw (e : Engine) (st : ResultCache) (commitment : Bytes)
    (proof : Proof) (identifier : String) :
    Except PyErr (Bool × ResultCache) :=
  if ¬ proof.hasRequiredFields then .ok (false, st)
  else
    let cacheKey : CacheKey := ⟨commitment, identifier⟩
    let r := st.get cacheKey
    match r.1 with
    | some cached => .ok (cached, r.2)
    | none =>
      match proof.signature with
      | none => .error .keyError
      | some .notHex => .error .valueError
      | some .nullSig => .error .typeError
      | some (.hexOf sig) =>
        let message := (proof.stripSignature, commitment)
        if e.sign message ≠ sig then .ok (false, r.2)
        else
          match proof.basis_coefficients with
          | none => .error .keyError
          | some entries =>
            match parseCoeffs entries with
            | .error er => .error er
            | .ok coeffs =>
              if ¬ verify_basis_coefficients coeffs then .ok (false, r.2)
              else .ok (true, r.2.put cacheKey true)

/-- Nested `verify_proof(commitment, proof, identifier)`: the `except`
handler maps any internal exception to `False`.  (On every fault path the
cache has not yet been mutated, so the handler leaves the entry state.)
Returns the boolean together with the cache afterwards. -/
def verify_proof (e : Engine) (st : ResultCache) (commitment : Bytes)
    (proof : Proof) (identifier : String) : Bool × ResultCache :=
  match verify_proof_raw e st commitment proof identifier with
  | .ok r => r
  | .error _ => (false, st)

/-- The sequential execution of one batch's items against the shared cache,
in submission order (one admissible serialization of the worker pool's
interleaving; each `verify_proof` critical section is atomic). -/
def runItems (e : Engine) : ResultCache → List (Bytes × Proof × String) → List Bool
  | _, [] => []
  | st, (c, p, id) :: rest =>
    let r := verify_proof e st c p id
    r.1 :: runItems e r.2 rest

/-- Nested `verify_proof_batch` on one batch (`batch_size` defaults to 1000;
the claims' inputs fit in a single batch): the futures' results are
collected with `concurrent.futures.as_completed(futures)`, which yields
each future once in COMPLETION order — modelled by the permutation
`completionOrder` of the item positions, a scheduler choice. -/
def verify_proof_batch (e : Engine) (st : ResultCache)
    (items : List (Bytes × Proof × String)) (completionOrder : List ℕ) :
    List Bool :=
  let results := runItems e st items
  completionOrder.filterMap (fun i => results.get? i)

end QZKPNested

/-- C4: confirmed.  In both cited variants the whole verification body sits
inside `try: ... except Exception: return False`; the embedding's totality
(both `verify_proof`s are functions into `Bool × state`) is the "always
returns a boolean" half, and this theorem is the "any internal exception
becomes `False`" half: whenever the body (the inside of the `try`) raises,
the call returns `False` and, for the nested variant, leaves the cache as it
was. -/
theorem C4_verify_exceptions_become_false :
    (∀ (e : QZKPNested.Engine) (st : QZKPNested.ResultCache) (c : Bytes)
        (p : Proof) (id : String) (er : PyErr),
      QZKPNested.verify_proof_raw e st c p id = .error er →
        QZKPNested.verify_proof e st c p id = (false, st)) ∧
    (∀ (e : QZKPClassic.Engine) (c : QZKPClassic.Commitment) (p : Proof)
        (id : String) (er : PyErr) (p' : Proof),
      QZKPClassic.verify_proof_raw e c p id = .error (er, p') →
        QZKPClassic.verify_proof e c p id = (false, p')) := by
  constructor
  · intro e st c p id er h
    simp [QZKPNested.verify_proof, h]
  · intro e c p id er p' h
    simp [QZKPClassic.verify_proof, h]

/-- A structurally complete proof whose signature member is a string that is
not valid hex: `bytes.fromhex` raises `ValueError` inside the `try`. -/
def C4proofNotHex : Proof where
  quantum_dimensions := some 8
  basis_coefficients := some [.obj 1 0]
  measurements := some []
  state_metadata := some (.kvs [])
  identifier := some "test-1"
  signature := some .notHex

/-- A structurally complete proof whose signature member is `None`:
`bytes.fromhex(None)` raises `TypeError` inside the `try`. -/
def C4proofNullSig : Proof where
  quantum_dimensions := some 8
  basis_coefficients := some [.obj 1 0]
  measurements := some []
  state_metadata := some (.classicMeta 1 ⟨[1]⟩)
  identifier := some "test-1"
  signature := some .nullSig

/-- An engine and an empty cache (capacity `MAX_CACHE_SIZE = 10000`) for
evaluating the nested verifier on concrete inputs. -/
def C4engine : QZKPNested.Engine := ⟨8, 128, fun _ => [0]⟩

/-- The empty `ResultCache()` of a fresh nested engine. -/
def emptyCache : QZKPNested.ResultCache := ⟨[], [], 10000⟩

/-- Witness for C4: both conjuncts applied at concrete malformed proofs that
raise inside the `try` (`ValueError` from `bytes.fromhex` on a non-hex
string for the nested variant, `TypeError` from `bytes.fromhex(None)` for
the classic one); both calls return `False` instead of propagating. -/
theorem C4_verify_exceptions_become_false_witness :
    QZKPNested.verify_proof C4engine emptyCache [1] C4proofNotHex "test-1"
        = (false, emptyCache) ∧
    QZKPClassic.verify_proof ⟨8, 128⟩ QZKPClassic.sampleCommitment
        C4proofNullSig "test-1" = (false, C4proofNullSig) :=
  ⟨C4_verify_exceptions_become_false.1 C4engine emptyCache [1] C4proofNotHex
      "test-1" .valueError (of_decide_eq_true (by with_unfolding_all rfl)),
    C4_verify_exceptions_become_false.2 ⟨8, 128⟩ QZKPClassic.sampleCommitment
      C4proofNullSig "test-1" .typeError C4proofNullSig
      (of_decide_eq_true (by with_unfolding_all rfl))⟩

/-- The proof body (signature member still absent) of the valid proof used
to exercise the nested cache. -/
def C5body : Proof where
  quantum_dimensions := some 8
  basis_coefficients := some [.obj 1 0]
  measurements := some []
  state_metadata := some (.kvs [])
  identifier := some "test-1"
  signature := none

/-- The valid proof: `C5body` plus the signature its engine produces. -/
def C5proofGood : Proof := { C5body with signature := some (.hexOf [5]) }

/-- A different proof body under the same commitment and identifier: its
coefficient array sums to 4, so fresh verification must reject it; the
signature bytes are copied from the valid proof. -/
def C5proofBad : Proof :=
  { C5body with
    basis_coefficients := some [.obj 2 0]
    signature := some (.hexOf [5]) }

/-- The engine whose Falcon signature over the canonicalized
`C5body ‖ commitment [9]` is the byte `[5]` (and `[6]` over anything
else). -/
def C5engine : QZKPNested.Engine :=
  ⟨8, 128, fun m => if m = (C5body, ([9] : Bytes)) then [5] else [6]⟩

/-- C5: the claim fails on the code and the spec names the defect itself
(the cache key must not be commitment+identifier alone "to avoid stale
accepts").  The cited line computes
`cache_key = f"{commitment.hex()}-{identifier}"` — no digest of the proof
body enters the key.  Consequences, all evaluated here: a valid proof
verifies and is cached; a DIFFERENT proof body (non-normalized coefficients,
signature over a different body) presented with the same commitment and
identifier then short-circuits to the cached `True` — a stale accept — even
though fresh verification of that same proof returns `False`. -/
theorem C5_cache_key_ignores_proof_body :
    C5proofGood ≠ C5proofBad ∧
    (QZKPNested.verify_proof C5engine emptyCache [9] C5proofGood "test-1").1
        = true ∧
    (QZKPNested.verify_proof C5engine
        (QZKPNested.verify_proof C5engine emptyCache [9] C5proofGood "test-1").2
        [9] C5proofBad "test-1").1 = true ∧
    (QZKPNested.verify_proof C5engine emptyCache [9] C5proofBad "test-1").1
        = false :=
  of_decide_eq_true (by with_unfolding_all rfl)

/-- The proof body of the valid item of the C6 batch. -/
def C6body : Proof where
  quantum_dimensions := some 8
  basis_coefficients := some [.obj 1 0]
  measurements := some []
  state_metadata := some (.kvs [])
  identifier := some "batch"
  signature := none

/-- The valid batch item: verifies `true` under `C6engine` with commitment
`[1]`. -/
def C6proofGood : Proof := { C6body with signature := some (.hexOf [5]) }

/-- The failing batch item: its signature bytes do not match its body, so
single-item verification returns `false`. -/
def C6proofBad : Proof :=
  { C6body with
    basis_coefficients := some [.obj 2 0]
    signature := some (.hexOf [5]) }

/-- The engine for the C6 batch. -/
def C6engine : QZKPNested.Engine :=
  ⟨8, 128, fun m => if m = (C6body, ([1] : Bytes)) then [5] else [6]⟩

/-- C6: the claim fails on the nested variant, and the spec states the
intended behaviour explicitly ("result collection preserves input order"),
as does the joblib-based sibling variant which does preserve order; the
cited nested `verify_proof_batch` collects
`[future.result() for future in concurrent.futures.as_completed(futures)]`,
and `as_completed` yields futures in completion order — a scheduler choice.
Evaluated here: a two-item batch whose single-item results are
`(true, false)` in input order returns `[false, true]` under the admissible
completion order "second item finishes first", so the i-th batch result is
NOT the single-item result of the i-th input. -/
theorem C6_batch_results_follow_completion_order :
    QZKPNested.verify_proof_batch C6engine emptyCache
        [([1], C6proofGood, "batch"), ([2], C6proofBad, "batch")] [1, 0]
        = [false, true] ∧
    ((QZKPNested.verify_proof C6engine emptyCache [1] C6proofGood "batch").1,
      (QZKPNested.verify_proof C6engine emptyCache [2] C6proofBad "batch").1)
        = (true, false) ∧
    ([false, true] : List Bool) ≠ [true, false] :=
  of_decide_eq_true (by with_unfolding_all rfl)

/-- A successful lookup returns the value of a stored entry. -/
theorem QZKPNested.lookupAssoc_mem :
    ∀ (cache : List (QZKPNested.CacheKey × Bool)) (key : QZKPNested.CacheKey)
      (v : Bool), QZKPNested.lookupAssoc cache key = some v → (key, v) ∈ cache
  | [], _, _, h => by simp [QZKPNested.lookupAssoc] at h
  | (k, w) :: rest, key, v, h => by
    by_cases hk : k = key
    · simp only [QZKPNested.lookupAssoc, if_pos hk] at h
      injection h with h
      subst hk; subst h
      exact List.mem_cons_self _ _
    · simp only [QZKPNested.lookupAssoc, if_neg hk] at h
      exact List.mem_cons_of_mem _ (QZKPNested.lookupAssoc_mem rest key v h)

/-- Entries of an updated mapping: the written pair or a previous entry. -/
theorem QZKPNested.mem_updateAssoc :
    ∀ (cache : List (QZKPNested.CacheKey × Bool)) (key : QZKPNested.CacheKey)
      (v : Bool) (en : QZKPNested.CacheKey × Bool),
      en ∈ QZKPNested.updateAssoc cache key v → en = (key, v) ∨ en ∈ cache
  | [], key, v, en, h => by
    simp only [QZKPNested.updateAssoc] at h
    exact Or.inl (List.mem_singleton.mp h)
  | (k, w) :: rest, key, v, en, h => by
    by_cases hk : k = key
    · simp only [QZKPNested.updateAssoc, if_pos hk] at h
      rcases List.mem_cons.mp h with h | h
      · exact Or.inl h
      · exact Or.inr (List.mem_cons_of_mem _ h)
    · simp only [QZKPNested.updateAssoc, if_neg hk] at h
      rcases List.mem_cons.mp h with h | h
      · subst h; exact Or.inr (List.mem_cons_self _ _)
      · rcases QZKPNested.mem_updateAssoc rest key v en h with h | h
        · exact Or.inl h
        · exact Or.inr (List.mem_cons_of_mem _ h)

/-- Deletion only removes entries. -/
theorem QZKPNested.mem_removeAssoc :
    ∀ (cache : List (QZKPNested.CacheKey × Bool)) (key : QZKPNested.CacheKey)
      (en : QZKPNested.CacheKey × Bool),
      en ∈ QZKPNested.removeAssoc cache key → en ∈ cache
  | [], _, _, h => by simpa [QZKPNested.removeAssoc] using h
  | (k, w) :: rest, key, en, h => by
    by_cases hk : k = key
    · simp only [QZKPNested.removeAssoc, if_pos hk] at h
      exact List.mem_cons_of_mem _ h
    · simp only [QZKPNested.removeAssoc, if_neg hk] at h
      rcases List.mem_cons.mp h with h | h
      · subst h; exact List.mem_cons_self _ _
      · exact List.mem_cons_of_mem _ (QZKPNested.mem_removeAssoc rest key en h)

/-- The eviction loop only removes entries. -/
theorem QZKPNested.mem_evictOldestGo :
    ∀ (m : ℕ) (q : List QZKPNested.CacheKey)
      (cache : List (QZKPNested.CacheKey × Bool)) (en : QZKPNested.CacheKey × Bool),
      en ∈ (QZKPNested.evictOldestGo m q cache).2 → en ∈ cache
  | _, [], cache, en, h => by simpa [QZKPNested.evictOldestGo] using h
  | m, k :: q, cache, en, h => by
    by_cases hc : m ≤ cache.length
    · simp only [QZKPNested.evictOldestGo, if_pos hc] at h
      by_cases hl : (QZKPNested.lookupAssoc cache k).isSome
      · simp only [if_pos hl] at h
        exact QZKPNested.mem_removeAssoc _ _ _
          (QZKPNested.mem_evictOldestGo m q _ en h)
      · simp only [if_neg hl] at h
        exact QZKPNested.mem_evictOldestGo m q _ en h
    · simp only [QZKPNested.evictOldestGo, if_neg hc] at h
      exact h

/-- `put key true` preserves "every stored value is `True`". -/
theorem QZKPNested.put_true_preserves (st : QZKPNested.ResultCache)
    (key : QZKPNested.CacheKey) (hwf : ∀ en ∈ st.cache, en.2 = true) :
    ∀ en ∈ (st.put key true).cache, en.2 = true := by
  intro en hen
  simp only [QZKPNested.ResultCache.put] at hen
  rcases QZKPNested.mem_updateAssoc _ _ _ _ hen with h | h
  · subst h; rfl
  · by_cases hcap : st.maxsize ≤ st.cache.length
    · simp only [if_pos hcap] at h
      exact hwf en (QZKPNested.mem_evictOldestGo _ _ _ _ h)
    · simp only [if_neg hcap] at h
      exact hwf en h

/-- C10: confirmed.  In the nested `verify_proof` the single
`self._result_cache.put(cache_key, True)` call sits immediately before
`return True`, every `return False` path precedes it, and a raised exception
lands in the handler before any `put`: so provided every entry of the
incoming cache holds `True` (trivially so for the engine's fresh empty
cache), every entry after the call still holds `True`, and a call that
returns `False` leaves the cache object exactly as it found it — a failing
proof is never cached. -/
theorem C10_cache_only_stores_true (e : QZKPNested.Engine)
    (st : QZKPNested.ResultCache) (c : Bytes) (p : Proof) (id : String)
    (hwf : ∀ en ∈ st.cache, en.2 = true) :
    (∀ en ∈ (QZKPNested.verify_proof e st c p id).2.cache, en.2 = true) ∧
    ((QZKPNested.verify_proof e st c p id).1 = false →
      (QZKPNested.verify_proof e st c p id).2 = st) := by
  unfold QZKPNested.verify_proof QZKPNested.verify_proof_raw
  by_cases h1 : ¬ p.hasRequiredFields
  · simp only [if_pos h1]
    exact ⟨hwf, by simp⟩
  · simp only [if_neg h1, QZKPNested.ResultCache.get]
    cases hlk : QZKPNested.lookupAssoc st.cache ⟨c, id⟩ with
    | some v =>
      have hv : v = true := hwf _ (QZKPNested.lookupAssoc_mem _ _ _ hlk)
      subst hv
      dsimp only
      exact ⟨hwf, by simp⟩
    | none =>
      dsimp only
      cases hs : p.signature with
      | none => exact ⟨hwf, by simp⟩
      | some sf =>
        cases sf with
        | notHex => exact ⟨hwf, by simp⟩
        | nullSig => exact ⟨hwf, by simp⟩
        | hexOf sig =>
          dsimp only
          by_cases hsig : e.sign (p.stripSignature, c) ≠ sig
          · simp only [if_pos hsig]
            exact ⟨hwf, by simp⟩
          · simp only [if_neg hsig]
            cases hbc : p.basis_coefficients with
            | none => exact ⟨hwf, by simp⟩
            | some entries =>
              dsimp only
              cases hp : QZKPNested.parseCoeffs entries with
              | error er => exact ⟨hwf, by simp⟩
              | ok coeffs =>
                dsimp only
                by_cases hnorm : ¬ QZKPNested.verify_basis_coefficients coeffs
                · simp only [if_pos hnorm]
                  exact ⟨hwf, by simp⟩
                · simp only [if_neg hnorm]
                  exact ⟨QZKPNested.put_true_preserves st ⟨c, id⟩ hwf, by simp⟩

/-- Witness for C10 on an engine's fresh empty cache and an arbitrary
structurally complete proof. -/
theorem C10_cache_only_stores_true_witness :
    (∀ en ∈ (QZKPNested.verify_proof C4engine emptyCache [3] C5body
        "test-1").2.cache, en.2 = true) ∧
    ((QZKPNested.verify_proof C4engine emptyCache [3] C5body "test-1").1
        = false →
      (QZKPNested.verify_proof C4engine emptyCache [3] C5body "test-1").2
        = emptyCache) :=
  C10_cache_only_stores_true C4engine emptyCache [3] C5body "test-1"
    (fun _ hen => absurd hen (List.not_mem_nil _))

namespace QZKPOpt

/-! Embedding of `src/modules/zkp/qzkp_optimized.py` (`QuantumZKP` with
`deterministic=True` state preparation and joblib batch helpers). -/

/-- `int(np.ceil(np.sqrt(n)))`: the least `k` with `n ≤ k²`. -/
def ceilSqrt (n : ℕ) : ℕ :=
  ((List.range (n + 2)).find? (fun k => n ≤ k * k)).getD 0

/-- `adjust_to_square_length(vector)`: zero-pad up to the next
perfect-square length (a vector of length 8 becomes one of length 9). -/
def adjust_to_square_length (v : List ℚ) : List ℚ :=
  let targetLength := ceilSqrt v.length * ceilSqrt v.length
  if v.length < targetLength then v ++ List.replicate (targetLength - v.length) 0
  else v

/-- Pre-image of the optimized commitment digest:
`h.update(coordinates.tobytes()); h.update(str(coherence));
h.update(identifier)`. -/
structure CommitInput where
  coords : NormVec
  coherence : CoherenceVal
  identifier : String
deriving DecidableEq

/-- An optimized-variant commitment: the SHA3-256 digest modelled as an
injective packaging of its pre-image (collision resistance of the hash). -/
structure Commitment where
  digest : CommitInput
deriving DecidableEq

/-- The engine state used by prove/verify: configuration plus the Falcon
keypair, the latter modelled by the deterministic signing function `sign`
over the canonicalized body-with-commitment pair built by
`_prepare_message_for_signing`; `_falcon.verify(m, s, pk)` holds exactly
when `s = sign m`. -/
structure Engine where
  dimensions : ℤ
  security_level : ℕ
  sign : Proof × Commitment → Bytes

/-- `QuantumZKP.prove_vector_knowledge(vector, identifier)`: normalize
(representing `v / ||v||` by the pair of `v` and `normSq v`), build the
deterministic state (`adjust_to_square_length` padding, all-zero phases, so
the coordinates stay the padded normalized reals), compute coherence,
entropy and correlation, hash the commitment, list the basis coefficients,
draw `security_level // 8` measurement indices from the stream `idxRand`
(`np.random.randint(0, len(coords))` is the draw reduced mod the padded
length), assemble the proof dictionary, sign its canonicalized body with the
commitment appended, and attach the hex signature. -/
def prove_vector_knowledge (e : Engine) (v : List ℚ) (identifier : String)
    (idxRand : ℕ → ℕ) : Commitment × Proof :=
  let state0 : NormVec := ⟨adjust_to_square_length v, normSq v⟩
  let coherence : CoherenceVal :=
    ⟨(state0.raw.map qabs).sum, state0.raw.length, state0.nsq⟩
  let entropy : EntropyVal := ⟨state0.raw.map (fun x => x * x / state0.nsq)⟩
  let correlation := entropy
  let commitment : Commitment := ⟨⟨state0, coherence, identifier⟩⟩
  let basisCoefficients :=
    state0.raw.map (fun x => CoeffEntry.pyComplex (.normalized x state0.nsq))
  let num := e.security_level / 8
  let measurements := (List.range num).map (fun k =>
    let idx := idxRand k % state0.raw.length
    let amp := state0.raw.getD idx 0
    Measurement.mk idx (amp * amp / state0.nsq)
      (if amp < 0 then .pi else .zero))
  let proof0 : Proof :=
    { quantum_dimensions := some e.dimensions
      basis_coefficients := some basisCoefficients
      measurements := some measurements
      state_metadata := some (.optMeta coherence entropy correlation)
      identifier := some identifier
      signature := none }
  let message := (proof0.stripSignature, commitment)
  let signature := e.sign message
  (commitment, { proof0 with signature := some (.hexOf signature) })

/-- The optimized coefficient parser
`complex(c['real'], c['imag']) if isinstance(c, dict) else complex(c)`:
objects must carry both members (`KeyError` otherwise); numbers and live
Python complexes both convert. -/
def parseCoeff : CoeffEntry → Except PyErr CVal
  | .obj re im => .ok (.pair re im)
  | .objMissing => .error .keyError
  | .num q => .ok (.pair q 0)
  | .pyComplex c => .ok c

/-- Elementwise parse of the coefficient list. -/
def parseCoeffs : List CoeffEntry → Except PyErr (List CVal)
  | [] => .ok []
  | c :: rest =>
    match parseCoeff c, parseCoeffs rest with
    | .ok v, .ok vs => .ok (v :: vs)
    | .error er, _ => .error er
    | .ok _, .error er => .error er

/-- `np.isclose(a, b, atol=atol)` with numpy's default relative tolerance
`rtol = 1e-5`: `abs(a - b) <= atol + rtol * abs(b)`. -/
def isclose (a b atol : ℚ) : Bool :=
  decide (qabs (a - b) ≤ atol + (1 / 100000) * qabs b)

/-- The body of the optimized `verify_proof` (the inside of its `try`):
structural check, engine-dimension and identifier comparison, hex decode,
Falcon check of the canonicalized body ‖ commitment, then
`np.isclose(Σ|c_i|², 1.0, atol=1e-5)`. -/
def verify_proof_raw (e : Engine) (commitment : Commitment) (proof : Proof)
    (identifier : String) : Except PyErr Bool :=
  if ¬ proof.hasRequiredFields then .ok false
  else if proof.quantum_dimensions ≠ some e.dimensions ∨
      proof.identifier ≠ some identifier then .ok false
  else
    match proof.signature with
    | none => .error .keyError
    | some .notHex => .error .valueError
    | some .nullSig => .error .typeError
    | some (.hexOf sig) =>
      let message := (proof.stripSignature, commitment)
      if e.sign message ≠ sig then .ok false
      else
        match proof.basis_coefficients with
        | none => .error .keyError
        | some entries =>
          match parseCoeffs entries with
          | .error er => .error er
          | .ok coeffs =>
            .ok (isclose ((coeffs.map CVal.absSq).sum) 1 (1 / 100000))

/-- Optimized `verify_proof(commitment, proof, identifier)`: the `except`
handler maps any internal exception to `False`. -/
def verify_proof (e : Engine) (commitment : Commitment) (proof : Proof)
    (identifier : String) : Bool :=
  match verify_proof_raw e commitment proof identifier with
  | .ok b => b
  | .error _ => false

end QZKPOpt

namespace RG

/-! Embedding of `_generate_measurements` in
`src/src/modules/zkp/revised_gemini.py`. -/

/-- `num_measurements = min(security_level // 8, len(state_coordinates))`
(the source comment says "Limit measurements to state size"). -/
def num_measurements (securityLevel len : ℕ) : ℕ := min (securityLevel / 8) len

/-- `_generate_measurements(state_coordinates, security_level)`: the indices
are `np.random.choice(len, num_measurements, replace=False)` — sampling
WITHOUT replacement — modelled by the first `num_measurements` entries of
the stream `choiceIdx`; each sample reads the amplitude at its index. -/
def generate_measurements (coords : NormVec) (securityLevel : ℕ)
    (choiceIdx : List ℕ) : List Measurement :=
  (choiceIdx.take (num_measurements securityLevel coords.raw.length)).map
    (fun idx =>
      let amp := coords.raw.getD idx 0
      Measurement.mk idx (amp * amp / coords.nsq)
        (if amp < 0 then .pi else .zero))

end RG

/-- Zero padding does not change the squared norm. -/
theorem normSq_append_zeros (v : List ℚ) (k : ℕ) :
    normSq (v ++ List.replicate k 0) = normSq v := by
  simp [normSq, List.map_append, List.sum_append, List.map_replicate]

/-- `adjust_to_square_length` preserves the squared norm. -/
theorem QZKPOpt.normSq_adjust (v : List ℚ) :
    normSq (QZKPOpt.adjust_to_square_length v) = normSq v := by
  unfold QZKPOpt.adjust_to_square_length
  dsimp only
  split
  · exact normSq_append_zeros v _
  · rfl

/-- The optimized parser accepts a list of live Python complexes verbatim. -/
theorem QZKPOpt.parseCoeffs_pyComplex (f : ℚ → CVal) :
    ∀ l : List ℚ,
      QZKPOpt.parseCoeffs (l.map (fun x => CoeffEntry.pyComplex (f x)))
        = .ok (l.map f)
  | [] => rfl
  | a :: t => by
    simp only [List.map_cons, QZKPOpt.parseCoeffs, QZKPOpt.parseCoeff,
      QZKPOpt.parseCoeffs_pyComplex f t]

/-- The squared magnitudes of normalized coefficients sum to
`normSq l / n`. -/
theorem sum_absSq_normalized (n : ℚ) :
    ∀ l : List ℚ,
      ((l.map (fun x => CVal.normalized x n)).map CVal.absSq).sum
        = normSq l / n
  | [] => by simp [normSq]
  | a :: t => by
    simp only [List.map_cons, List.sum_cons, CVal.absSq, normSq,
      sum_absSq_normalized n t, div_add_div_same]

/-- C2: confirmed for the cited (top-level, deterministic) variant.  The
proof produced for a nonzero-norm vector verifies on the same engine:
its fields are present, its `quantum_dimensions` and `identifier` members
are precisely what `verify_proof` compares against, the signature is
checked against the identical canonicalized body-with-commitment that was
signed, and the coefficient magnitudes sum to exactly
`normSq v / normSq v = 1`, within the `np.isclose(..., atol=1e-5)`
tolerance. -/
theorem C2_prove_then_verify_roundtrip (e : QZKPOpt.Engine) (v : List ℚ)
    (identifier : String) (idxRand : ℕ → ℕ) (h : normSq v ≠ 0) :
    QZKPOpt.verify_proof e
      (QZKPOpt.prove_vector_knowledge e v identifier idxRand).1
      (QZKPOpt.prove_vector_knowledge e v identifier idxRand).2
      identifier = true := by
  unfold QZKPOpt.prove_vector_knowledge QZKPOpt.verify_proof
    QZKPOpt.verify_proof_raw
  dsimp only [Proof.hasRequiredFields, Proof.stripSignature]
  simp only [Option.isSome_some, Bool.and_self, Bool.not_true,
    Bool.false_eq_true, if_false, ne_eq, Option.some.injEq, not_true_eq_false,
    false_or, if_neg, not_false_eq_true, QZKPOpt.parseCoeffs_pyComplex,
    sum_absSq_normalized, QZKPOpt.normSq_adjust]
  rw [div_self h]
  simp [QZKPOpt.isclose, qabs]
  norm_num

/-- A concrete optimized engine (dimension 8, security level 128). -/
def C2engine : QZKPOpt.Engine := ⟨8, 128, fun _ => [0]⟩

/-- Witness for C2 at `v = [3, 4]` (norm 5), identifier "test-1". -/
theorem C2_prove_then_verify_roundtrip_witness :
    normSq [3, 4] ≠ 0 ∧
    QZKPOpt.verify_proof C2engine
      (QZKPOpt.prove_vector_knowledge C2engine [3, 4] "test-1" (fun _ => 0)).1
      (QZKPOpt.prove_vector_knowledge C2engine [3, 4] "test-1" (fun _ => 0)).2
      "test-1" = true :=
  ⟨of_decide_eq_true (by with_unfolding_all rfl),
    C2_prove_then_verify_roundtrip C2engine [3, 4] "test-1" (fun _ => 0)
      (of_decide_eq_true (by with_unfolding_all rfl))⟩

/-- C7 counterexample: at Scenario A's parameters (dimension 8, state
vector `[1,0,0,0,0,0,0,0]`, security level 128) the cited
`revised_gemini._generate_measurements` produces
`min(security_level // 8, len(state_coordinates)) = min(16, 8) = 8`
measurements — not `securityLevel/8 = 16` — and samples indices WITHOUT
replacement (`np.random.choice(..., replace=False)`). -/
theorem C7_sixteen_measurements_counterexample :
    (RG.generate_measurements ⟨[1, 0, 0, 0, 0, 0, 0, 0], 1⟩ 128
        [0, 1, 2, 3, 4, 5, 6, 7]).length = 8 ∧
    (128 : ℕ) / 8 = 16 ∧ (8 : ℕ) ≠ 16 :=
  of_decide_eq_true (by with_unfolding_all rfl)

/-- The adjusted vector is at least as long as the input. -/
theorem QZKPOpt.length_le_adjust (v : List ℚ) :
    v.length ≤ (QZKPOpt.adjust_to_square_length v).length := by
  unfold QZKPOpt.adjust_to_square_length
  dsimp only
  split
  · simp
  · exact le_refl _

/-- C7 amended: in the optimized variant every proof carries exactly
`security_level / 8` measurements, with replacement, each index drawn from
`[0, L)` where `L = ceilSqrt(len)²` is the PADDED state length (9, not 8,
for an 8-dimensional vector); the revised_gemini variant instead produces
`min(security_level / 8, len)` measurements without replacement.  (The
claim's "exactly securityLevel/8 samples from `[0, dimension)`" holds in
neither cited variant: the count is capped in one, the index range padded
in the other.) -/
theorem C7_amended_measurement_counts (e : QZKPOpt.Engine) (v : List ℚ)
    (identifier : String) (idxRand : ℕ → ℕ) (hv : v ≠ [])
    (sl : ℕ) (coords : NormVec) (choiceIdx : List ℕ)
    (hc : RG.num_measurements sl coords.raw.length ≤ choiceIdx.length) :
    (((QZKPOpt.prove_vector_knowledge e v identifier
        idxRand).2.measurements.getD []).length = e.security_level / 8) ∧
    (∀ m ∈ (QZKPOpt.prove_vector_knowledge e v identifier
        idxRand).2.measurements.getD [],
      m.basis_index < (QZKPOpt.adjust_to_square_length v).length) ∧
    ((RG.generate_measurements coords sl choiceIdx).length
        = min (sl / 8) coords.raw.length) := by
  refine ⟨?_, ?_, ?_⟩
  · simp [QZKPOpt.prove_vector_knowledge]
  · intro m hm
    simp only [QZKPOpt.prove_vector_knowledge, Option.getD_some,
      List.mem_map, List.mem_range] at hm
    obtain ⟨k, _, hk⟩ := hm
    have hL : 0 < (QZKPOpt.adjust_to_square_length v).length :=
      lt_of_lt_of_le (List.length_pos.mpr hv) (QZKPOpt.length_le_adjust v)
    subst hk
    exact Nat.mod_lt _ hL
  · simp only [RG.generate_measurements, List.length_map, List.length_take,
      RG.num_measurements] at *
    exact min_eq_left hc

/-- Witness for the amended C7 at Scenario A's parameters: the optimized
proof for the 8-dimensional vector has `128 / 8 = 16` measurements with
indices below the padded length `9`, and the revised variant produces
`min(16, 8) = 8`. -/
theorem C7_amended_measurement_counts_witness :
    (((QZKPOpt.prove_vector_knowledge C2engine [1, 0, 0, 0, 0, 0, 0, 0]
        "test-1" (fun k => k)).2.measurements.getD []).length
          = C2engine.security_level / 8) ∧
    (∀ m ∈ (QZKPOpt.prove_vector_knowledge C2engine [1, 0, 0, 0, 0, 0, 0, 0]
        "test-1" (fun k => k)).2.measurements.getD [],
      m.basis_index
        < (QZKPOpt.adjust_to_square_length
            ([1, 0, 0, 0, 0, 0, 0, 0] : List ℚ)).length) ∧
    ((RG.generate_measurements ⟨[1, 0, 0, 0, 0, 0, 0, 0], 1⟩ 128
        [0, 1, 2, 3, 4, 5, 6, 7]).length
          = min (128 / 8) ([1, 0, 0, 0, 0, 0, 0, 0] : List ℚ).length) :=
  C7_amended_measurement_counts C2engine [1, 0, 0, 0, 0, 0, 0, 0] "test-1"
    (fun k => k) (of_decide_eq_true (by with_unfolding_all rfl)) 128
    ⟨[1, 0, 0, 0, 0, 0, 0, 0], 1⟩ [0, 1, 2, 3, 4, 5, 6, 7]
    (of_decide_eq_true (by with_unfolding_all rfl))
